import Mathlib

/-!
Verification of the command-dispatch / task-tracking core of the
Message-Bot-dogv repository (src/platforms/telegram/commands/basic_commands.py,
src/core/config.py) against its natural-language specification.

Python strings are modelled as Lean `String` / `List Char`; Python ints as
`Nat` (event ids and `int(time.time())` are non-negative); `time.time()`
float readings as `ℚ`; fallible calls (Telegram replies, the news fetch)
as `Except String α` where `.error e` models a raised exception.
-/

/-- Decimal digit character, `chr(48 + n)` for a digit value `n < 10`. -/
def digitChar (n : Nat) : Char := Char.ofNat (48 + n)

/-- Decimal rendering of a non-negative integer, as produced by a Python
f-string interpolation `f"{n}"` of an `int`. -/
def natDecimal (n : Nat) : List Char :=
  if n < 10 then [digitChar n]
  else natDecimal (n / 10) ++ [digitChar (n % 10)]
termination_by n
decreasing_by exact Nat.div_lt_self (by omega) (by omega)

/-- Task id generated at dispatch time, `f"{cmd}_{event.id}_{int(time.time())}"`
(basic_commands.py lines 70, 143, 235, 260, 301). -/
def taskId (cmd : String) (eventId : Nat) (t : Nat) : String :=
  ⟨cmd.data ++ '_' :: natDecimal eventId ++ '_' :: natDecimal t⟩

/-- Decimal read-back used to invert `natDecimal`. -/
def ofDecAux (acc : Nat) : List Char → Nat
  | [] => acc
  | c :: cs => ofDecAux (10 * acc + (c.toNat - 48)) cs

theorem ofDecAux_append (l1 l2 : List Char) (acc : Nat) :
    ofDecAux acc (l1 ++ l2) = ofDecAux (ofDecAux acc l1) l2 := by
  induction l1 generalizing acc with
  | nil => rfl
  | cons c cs ih =>
    rw [List.cons_append]
    show ofDecAux (10 * acc + (c.toNat - 48)) (cs ++ l2) = _
    rw [ih]
    rfl

theorem digitChar_toNat (n : Nat) (h : n < 10) : (digitChar n).toNat = 48 + n := by
  interval_cases n <;> decide

theorem ofDecAux_natDecimal (n : Nat) : ∀ acc : Nat,
    ofDecAux acc (natDecimal n) = acc * 10 ^ (natDecimal n).length + n := by
  induction n using Nat.strong_induction_on with
  | _ n ih =>
    intro acc
    rw [natDecimal]
    split
    · show 10 * acc + ((digitChar n).toNat - 48) = _
      rw [digitChar_toNat n (by omega)]
      simp
      omega
    · rw [ofDecAux_append, ih (n / 10) (Nat.div_lt_self (by omega) (by omega))]
      show 10 * (acc * 10 ^ (natDecimal (n / 10)).length + n / 10)
          + ((digitChar (n % 10)).toNat - 48) = _
      rw [digitChar_toNat (n % 10) (Nat.mod_lt n (by omega))]
      have hlen : (natDecimal (n / 10) ++ [digitChar (n % 10)]).length
          = (natDecimal (n / 10)).length + 1 := by simp
      rw [hlen, pow_succ, ← Nat.mul_assoc]
      generalize acc * 10 ^ (natDecimal (n / 10)).length = A
      have := Nat.div_add_mod n 10
      omega

theorem natDecimal_inj {m n : Nat} (h : natDecimal m = natDecimal n) : m = n := by
  have hm := ofDecAux_natDecimal m 0
  have hn := ofDecAux_natDecimal n 0
  rw [h] at hm
  simp at hm hn
  omega

theorem underscore_not_mem_natDecimal (n : Nat) : '_' ∉ natDecimal n := by
  induction n using Nat.strong_induction_on with
  | _ n ih =>
    rw [natDecimal]
    split
    · intro hmem
      have : '_' = digitChar n := by simpa using hmem
      have h95 : ('_').toNat = 48 + n := by rw [this]; exact digitChar_toNat n (by omega)
      have h95' : ('_').toNat = 95 := rfl
      omega
    · intro hmem
      rcases List.mem_append.mp hmem with h1 | h2
      · exact ih (n / 10) (Nat.div_lt_self (by omega) (by omega)) h1
      · have : '_' = digitChar (n % 10) := by simpa using h2
        have h95 : ('_').toNat = 48 + n % 10 := by
          rw [this]; exact digitChar_toNat (n % 10) (Nat.mod_lt n (by omega))
        have h95' : ('_').toNat = 95 := rfl
        omega

/-- Splitting at the first occurrence of a separator character is unambiguous
when neither left part contains the separator. -/
theorem split_at_first_sep (x : Char) (u1 : List Char) :
    ∀ (v1 u2 v2 : List Char), x ∉ u1 → x ∉ u2 →
      u1 ++ x :: v1 = u2 ++ x :: v2 → u1 = u2 ∧ v1 = v2 := by
  induction u1 with
  | nil =>
    intro v1 u2 v2 _ h2 he
    cases u2 with
    | nil => simpa using he
    | cons b bs =>
      simp at he
      exact absurd (he.1 ▸ List.mem_cons_self b bs) (he.1 ▸ h2)
  | cons a as ih =>
    intro v1 u2 v2 h1 h2 he
    cases u2 with
    | nil =>
      simp at he
      exact absurd (he.1 ▸ List.mem_cons_self a as) (he.1 ▸ h1)
    | cons b bs =>
      simp at he
      obtain ⟨hab, htail⟩ := he
      have h1' : x ∉ as := fun hx => h1 (List.mem_cons_of_mem a hx)
      have h2' : x ∉ bs := fun hx => h2 (List.mem_cons_of_mem b hx)
      obtain ⟨hu, hv⟩ := ih v1 bs v2 h1' h2' htail
      exact ⟨by rw [hab, hu], hv⟩

/-- C2: task ids built as `<command>_<event.id>_<int(time.time())>` are
distinct for distinct originating event ids, even when both dispatches carry
the same one-second timestamp (and for any pair of command names). -/
theorem taskId_injective_on_event_ids
    (c1 c2 : String) (e1 e2 t : Nat) (h : e1 ≠ e2) :
    taskId c1 e1 t ≠ taskId c2 e2 t := by
  intro heq
  have hd : c1.data ++ '_' :: natDecimal e1 ++ '_' :: natDecimal t
      = c2.data ++ '_' :: natDecimal e2 ++ '_' :: natDecimal t := by
    have := congrArg String.data heq
    simpa [taskId] using this
  have hrev := congrArg List.reverse hd
  simp only [List.reverse_append, List.reverse_cons] at hrev
  have hshape : ∀ (c : String) (e : Nat),
      ((natDecimal t).reverse ++ ['_']) ++ ((natDecimal e).reverse ++ ['_']) ++ c.data.reverse
      = (natDecimal t).reverse ++ '_' :: ((natDecimal e).reverse ++ '_' :: c.data.reverse) := by
    intro c e
    simp
  have hrev' : (natDecimal t).reverse ++ '_' :: ((natDecimal e1).reverse ++ '_' :: c1.data.reverse)
      = (natDecimal t).reverse ++ '_' :: ((natDecimal e2).reverse ++ '_' :: c2.data.reverse) := by
    rw [← hshape c1 e1, ← hshape c2 e2]
    simpa using hrev
  have hnot : ∀ n : Nat, '_' ∉ (natDecimal n).reverse := by
    intro n hmem
    exact underscore_not_mem_natDecimal n (List.mem_reverse.mp hmem)
  obtain ⟨-, htail⟩ := split_at_first_sep '_' ((natDecimal t).reverse)
    ((natDecimal e1).reverse ++ '_' :: c1.data.reverse)
    ((natDecimal t).reverse)
    ((natDecimal e2).reverse ++ '_' :: c2.data.reverse)
    (hnot t) (hnot t) hrev'
  obtain ⟨he, -⟩ := split_at_first_sep '_' ((natDecimal e1).reverse)
    (c1.data.reverse) ((natDecimal e2).reverse) (c2.data.reverse)
    (hnot e1) (hnot e2) htail
  exact h (natDecimal_inj (List.reverse_injective he))

/-- Witness for C2 at the concrete events 1 and 2 dispatching `/ping` in the
same second. -/
theorem taskId_injective_on_event_ids_witness :
    (1 : Nat) ≠ 2 ∧ taskId "ping" 1 100 ≠ taskId "ping" 2 100 :=
  ⟨by decide, taskId_injective_on_event_ids "ping" "ping" 1 2 100 (by decide)⟩

/-!
Task Tracker model. Each command handler (e.g. `ping_handler`,
basic_commands.py lines 67-81) spawns a task for its `_process_*` coroutine,
stores it under a generated task id in the client's `handlers` dict, adds the
task object to the `active_tasks` set, and installs two done-callbacks:
`active_tasks.discard(task)` and `handlers.pop(task_id, None)`.

The `handlers` dict is modelled as an insertion-ordered association list with
unique keys (Python dict semantics); the `active_tasks` set as a
duplicate-free list; task objects as `Nat` references.
-/

/-- A dispatched command: command name, originating event id, the
`int(time.time())` timestamp at dispatch, and the spawned task object. -/
structure Dispatch where
  cmd : String
  eventId : Nat
  time : Nat
  taskRef : Nat
deriving DecidableEq, Repr

/-- Task id stored for a dispatch (`task_id = f"{cmd}_{event.id}_{int(time.time())}"`). -/
def Dispatch.taskKey (d : Dispatch) : String := taskId d.cmd d.eventId d.time

/-- Python dict assignment `h[k] = v`: overwrite an existing key in place,
otherwise append. -/
def dictInsert (k : String) (v : Nat) : List (String × Nat) → List (String × Nat)
  | [] => [(k, v)]
  | p :: rest => if p.1 = k then (k, v) :: rest else p :: dictInsert k v rest

/-- Python `h.pop(k, None)`: remove the entry with key `k` if present (keys
are unique in a dict, so at most one entry is removed). -/
def dictPop (k : String) (l : List (String × Nat)) : List (String × Nat) :=
  l.filter (fun p => !(p.1 == k))

/-- Python `s.add(x)` on a set. -/
def setAdd (x : Nat) (s : List Nat) : List Nat :=
  if x ∈ s then s else s ++ [x]

/-- Python `s.discard(x)` on a set. -/
def setDiscard (x : Nat) (s : List Nat) : List Nat :=
  s.filter (fun y => !(y == x))

/-- Shared mutable tracker state: the client's `handlers` dict
(task id -> task) and `active_tasks` set. -/
@[ext] structure TrackerState where
  handlers : List (String × Nat)
  active : List Nat
deriving DecidableEq, Repr

/-- Process-start state: both registries empty. -/
def emptyTracker : TrackerState := ⟨[], []⟩

/-- Number of tracked entries (dict entries plus active-set members). -/
def TrackerState.trackedCount (st : TrackerState) : Nat :=
  st.handlers.length + st.active.length

/-- Dispatch-time bookkeeping of every handler (basic_commands.py lines
70-81 and the identical blocks of the other handlers): store the task under
its id and add it to the active-task set. -/
def spawnTask (d : Dispatch) (st : TrackerState) : TrackerState :=
  { handlers := dictInsert d.taskKey d.taskRef st.handlers
    active := setAdd d.taskRef st.active }

/-- How a spawned task ended; the done-callbacks do not depend on it. -/
inductive Outcome
  | success
  | failure
  | cancelled
deriving DecidableEq, Repr

/-- Completion hook: the two done-callbacks installed at spawn time
(`active_tasks.discard`, `handlers.pop(task_id, None)`), which asyncio runs
exactly once whatever the outcome of the task was. -/
def completeTask (d : Dispatch) (_outcome : Outcome) (st : TrackerState) : TrackerState :=
  { handlers := dictPop d.taskKey st.handlers
    active := setDiscard d.taskRef st.active }

/-- Run a sequence of dispatches. -/
def runDispatches : List Dispatch → TrackerState → TrackerState
  | [], st => st
  | d :: ds, st => runDispatches ds (spawnTask d st)

/-- Run a sequence of task completions (each with the outcome it ended in). -/
def runCompletions : List (Dispatch × Outcome) → TrackerState → TrackerState
  | [], st => st
  | c :: cs, st => runCompletions cs (completeTask c.1 c.2 st)

theorem mem_dictInsert {k : String} {v : Nat} {l : List (String × Nat)}
    {p : String × Nat} (h : p ∈ dictInsert k v l) : p.1 = k ∨ p ∈ l := by
  induction l with
  | nil =>
    simp [dictInsert] at h
    left; rw [h]
  | cons q rest ih =>
    simp only [dictInsert] at h
    split at h
    · rcases List.mem_cons.mp h with h1 | h1
      · left; rw [h1]
      · right; exact List.mem_cons_of_mem q h1
    · rcases List.mem_cons.mp h with h1 | h1
      · right; rw [h1]; exact List.mem_cons_self q rest
      · rcases ih h1 with h2 | h2
        · left; exact h2
        · right; exact List.mem_cons_of_mem q h2

theorem mem_handlers_runDispatches {ds : List Dispatch} {st : TrackerState}
    {p : String × Nat} (h : p ∈ (runDispatches ds st).handlers) :
    p ∈ st.handlers ∨ p.1 ∈ ds.map Dispatch.taskKey := by
  induction ds generalizing st with
  | nil => left; exact h
  | cons d ds ih =>
    rcases ih h with h1 | h1
    · rcases mem_dictInsert h1 with h2 | h2
      · right; simp [h2]
      · left; exact h2
    · right
      rw [List.map_cons]
      exact List.mem_cons_of_mem _ h1

theorem mem_setAdd {x y : Nat} {s : List Nat} (h : y ∈ setAdd x s) :
    y = x ∨ y ∈ s := by
  unfold setAdd at h
  split at h
  · right; exact h
  · rcases List.mem_append.mp h with h1 | h1
    · right; exact h1
    · left; simpa using h1

theorem mem_active_runDispatches {ds : List Dispatch} {st : TrackerState}
    {x : Nat} (h : x ∈ (runDispatches ds st).active) :
    x ∈ st.active ∨ x ∈ ds.map Dispatch.taskRef := by
  induction ds generalizing st with
  | nil => left; exact h
  | cons d ds ih =>
    rcases ih h with h1 | h1
    · rcases mem_setAdd h1 with h2 | h2
      · right; simp [h2]
      · left; exact h2
    · right
      rw [List.map_cons]
      exact List.mem_cons_of_mem _ h1

theorem mem_handlers_runCompletions {cs : List (Dispatch × Outcome)}
    {st : TrackerState} {p : String × Nat}
    (h : p ∈ (runCompletions cs st).handlers) :
    p ∈ st.handlers ∧ p.1 ∉ cs.map (fun c => c.1.taskKey) := by
  induction cs generalizing st with
  | nil => exact ⟨h, by simp⟩
  | cons c cs ih =>
    obtain ⟨h1, h2⟩ := ih h
    have h3 := List.mem_filter.mp h1
    refine ⟨h3.1, ?_⟩
    simp only [List.map_cons, List.mem_cons]
    rintro (hk | hk)
    · have := h3.2
      simp [hk] at this
    · exact h2 hk

theorem mem_active_runCompletions {cs : List (Dispatch × Outcome)}
    {st : TrackerState} {x : Nat}
    (h : x ∈ (runCompletions cs st).active) :
    x ∈ st.active ∧ x ∉ cs.map (fun c => c.1.taskRef) := by
  induction cs generalizing st with
  | nil => exact ⟨h, by simp⟩
  | cons c cs ih =>
    obtain ⟨h1, h2⟩ := ih h
    have h3 := List.mem_filter.mp h1
    refine ⟨h3.1, ?_⟩
    simp only [List.map_cons, List.mem_cons]
    rintro (hk | hk)
    · have := h3.2
      simp [hk] at this
    · exact h2 hk

/-- C1: once every spawned task of a set of dispatched commands has completed
(in any order, with any mix of success, failure and cancellation) and its two
done-callbacks have run, the tracker holds no entry at all: the `handlers`
dict and the `active_tasks` set are back to empty, so the tracked-entry count
is zero. -/
theorem tracker_drains_to_empty
    (ds : List Dispatch) (cs : List (Dispatch × Outcome))
    (hperm : (cs.map Prod.fst).Perm ds) :
    runCompletions cs (runDispatches ds emptyTracker) = emptyTracker
      ∧ (runCompletions cs (runDispatches ds emptyTracker)).trackedCount = 0 := by
  have hids : (cs.map fun c => c.1.taskKey).Perm (ds.map Dispatch.taskKey) := by
    have := hperm.map Dispatch.taskKey
    simpa [List.map_map, Function.comp] using this
  have hrefs : (cs.map fun c => c.1.taskRef).Perm (ds.map Dispatch.taskRef) := by
    have := hperm.map Dispatch.taskRef
    simpa [List.map_map, Function.comp] using this
  have hh : (runCompletions cs (runDispatches ds emptyTracker)).handlers = [] := by
    rw [List.eq_nil_iff_forall_not_mem]
    intro p hp
    obtain ⟨h1, h2⟩ := mem_handlers_runCompletions hp
    rcases mem_handlers_runDispatches h1 with h3 | h3
    · simp [emptyTracker] at h3
    · exact h2 (hids.mem_iff.mpr h3)
  have ha : (runCompletions cs (runDispatches ds emptyTracker)).active = [] := by
    rw [List.eq_nil_iff_forall_not_mem]
    intro x hx
    obtain ⟨h1, h2⟩ := mem_active_runCompletions hx
    rcases mem_active_runDispatches h1 with h3 | h3
    · simp [emptyTracker] at h3
    · exact h2 (hrefs.mem_iff.mpr h3)
  refine ⟨?_, ?_⟩
  · ext1
    · rw [hh]; rfl
    · rw [ha]; rfl
  · simp [TrackerState.trackedCount, hh, ha]

/-- Witness for C1: two `/ping` dispatches completing in reversed order, one
failing and one succeeding, leave the tracker empty. -/
theorem tracker_drains_to_empty_witness :
    (([(⟨"ping", 2, 100, 11⟩, Outcome.failure), (⟨"ping", 1, 100, 10⟩, Outcome.success)].map
        (Prod.fst (α := Dispatch) (β := Outcome))).Perm
      [⟨"ping", 1, 100, 10⟩, ⟨"ping", 2, 100, 11⟩])
    ∧ runCompletions
        [(⟨"ping", 2, 100, 11⟩, Outcome.failure), (⟨"ping", 1, 100, 10⟩, Outcome.success)]
        (runDispatches [⟨"ping", 1, 100, 10⟩, ⟨"ping", 2, 100, 11⟩] emptyTracker)
        = emptyTracker :=
  ⟨by decide,
   (tracker_drains_to_empty
      [⟨"ping", 1, 100, 10⟩, ⟨"ping", 2, 100, 11⟩]
      [(⟨"ping", 2, 100, 11⟩, Outcome.failure), (⟨"ping", 1, 100, 10⟩, Outcome.success)]
      (by decide)).1⟩

/-!
Model of `_process_unwire` (basic_commands.py lines 314-342). The text is
split with Python `str.split()` (runs of whitespace, empty parts dropped);
with exactly one part today's news is fetched, otherwise the second part is
validated with `datetime.strptime(date_str, "%Y-%m-%d")` and, if invalid, a
fixed error reply is sent and the handler returns without fetching. A
catch-all `except Exception` turns any exception raised in the body into one
generic failure reply.

`fetch` models `fetch_unwire_news` (an external collaborator), `respond`
models `event.respond`; `.error e` models a raised exception.
-/

/-- Whitespace recognised by CPython: the exact character set split on by
`str.split()` and matched by the str-pattern class `\s`
(`Py_UNICODE_ISSPACE`): U+0009-U+000D, U+001C-U+001F, the space, U+0085
(NEL), U+00A0 (NBSP), U+1680, U+2000-U+200A, U+2028, U+2029, U+202F,
U+205F and U+3000. -/
def pyIsSpace (c : Char) : Bool :=
  decide ((9 ≤ c.toNat ∧ c.toNat ≤ 13) ∨ (28 ≤ c.toNat ∧ c.toNat ≤ 31)
    ∨ c.toNat = 32 ∨ c.toNat = 133 ∨ c.toNat = 160 ∨ c.toNat = 5760
    ∨ (8192 ≤ c.toNat ∧ c.toNat ≤ 8202) ∨ c.toNat = 8232 ∨ c.toNat = 8233
    ∨ c.toNat = 8239 ∨ c.toNat = 8287 ∨ c.toNat = 12288)

/-- Worker for Python `str.split()`: accumulate the current word (reversed)
and emit it at each whitespace run or at the end. -/
def pySplitGo : List Char → List Char → List (List Char)
  | [], acc => if acc.isEmpty then [] else [acc.reverse]
  | c :: rest, acc =>
    if pyIsSpace c then
      if acc.isEmpty then pySplitGo rest []
      else acc.reverse :: pySplitGo rest []
    else pySplitGo rest (c :: acc)

/-- Python `s.split()` with no separator argument. -/
def pySplit (s : String) : List String :=
  (pySplitGo s.data []).map (fun l => ⟨l⟩)

/-- Decimal digit test, `c in "0123456789"`. -/
def isDig (c : Char) : Bool := 48 ≤ c.toNat && c.toNat ≤ 57

/-- Numeric value of a digit character. -/
def charVal (c : Char) : Nat := c.toNat - 48

/-- Reads a `YYYY-MM-DD`-shaped string (the only shape the registered
`/unwire` pattern lets through) into year, month, day. -/
def parseDate (s : String) : Option (Nat × Nat × Nat) :=
  match s.data with
  | [y1, y2, y3, y4, h1, m1, m2, h2, d1, d2] =>
    if isDig y1 && isDig y2 && isDig y3 && isDig y4 && h1 == '-'
        && isDig m1 && isDig m2 && h2 == '-' && isDig d1 && isDig d2 then
      some (charVal y1 * 1000 + charVal y2 * 100 + charVal y3 * 10 + charVal y4,
            charVal m1 * 10 + charVal m2,
            charVal d1 * 10 + charVal d2)
    else none
  | _ => none

/-- Gregorian leap-year rule used by `datetime`. -/
def isLeapYear (y : Nat) : Bool :=
  y % 4 == 0 && (y % 100 != 0 || y % 400 == 0)

/-- Number of days of a month, as `datetime` validates them. -/
def daysInMonth (y m : Nat) : Nat :=
  if m == 1 || m == 3 || m == 5 || m == 7 || m == 8 || m == 10 || m == 12 then 31
  else if m == 4 || m == 6 || m == 9 || m == 11 then 30
  else if isLeapYear y then 29
  else 28

/-- Calendar validity checked by `datetime(year, month, day)`
(`datetime.MINYEAR = 1`). -/
def validYMD (y m d : Nat) : Bool :=
  1 ≤ y && 1 ≤ m && m ≤ 12 && 1 ≤ d && d ≤ daysInMonth y m

/-- Success of `datetime.strptime(date_str, "%Y-%m-%d")` on the
`\d{4}-\d{2}-\d{2}`-shaped arguments admitted by the registered pattern:
the shape parses and names a valid calendar date. -/
def strptimeOk (s : String) : Bool :=
  match parseDate s with
  | some (y, m, d) => validYMD y m d
  | none => false

/-- Reply sent for a malformed date (basic_commands.py line 332). -/
def invalidDateMsg : String :=
  "Invalid date format. Please use YYYY-MM-DD format (e.g., 2025-04-19)."

/-- Generic failure reply of the unwire catch-all (basic_commands.py line 341). -/
def unwireFailMsg : String :=
  "Sorry, I couldn't fetch the news. Please try again later."

/-- Observable behaviour of one `_process_*` run: replies successfully sent,
fetch-service calls made (with their date argument), and the exception that
escaped the handler body, if any. -/
structure ProcResult where
  sent : List String
  fetched : List (Option String)
  escaped : Option String
deriving DecidableEq, Repr

/-- One `await event.respond(msg)` inside the `try` body: the reply list on
success, the exception otherwise. -/
def sendOne (respond : String → Except String Unit) (msg : String) :
    Except String (List String) :=
  match respond msg with
  | .ok _ => .ok [msg]
  | .error e => .error e

/-- The `try` body of `_process_unwire` (lines 317-337): returns the replies
sent (or the exception raised) together with the fetch calls made. -/
def unwireTry (fetch : Option String → Except String String)
    (respond : String → Except String Unit) (text : String) :
    Except String (List String) × List (Option String) :=
  match pySplit text with
  | [] =>
    -- command_text[1] on an empty list raises IndexError
    (.error "IndexError", [])
  | [_] =>
    match fetch none with
    | .error e => (.error e, [none])
    | .ok news => (sendOne respond news, [none])
  | _ :: dateStr :: _ =>
    if strptimeOk dateStr then
      match fetch (some dateStr) with
      | .error e => (.error e, [some dateStr])
      | .ok news => (sendOne respond news, [some dateStr])
    else
      (sendOne respond invalidDateMsg, [])

/-- `_process_unwire` (lines 314-342): the `try` body wrapped in the
catch-all `except Exception`, which sends one generic failure reply; an
exception raised by that last resort reply escapes the coroutine. -/
def processUnwire (fetch : Option String → Except String String)
    (respond : String → Except String Unit) (text : String) : ProcResult :=
  match unwireTry fetch respond text with
  | (.ok sent, calls) => ⟨sent, calls, none⟩
  | (.error _, calls) =>
    match respond unwireFailMsg with
    | .ok _ => ⟨[unwireFailMsg], calls, none⟩
    | .error e => ⟨[], calls, some e⟩

theorem pySplitGo_cons (c : Char) (l acc : List Char) :
    pySplitGo (c :: l) acc
      = if pyIsSpace c then
          (if acc.isEmpty then pySplitGo l [] else acc.reverse :: pySplitGo l [])
        else pySplitGo l (c :: acc) := rfl

theorem pySplitGo_all_sep {ws : List Char} (hws : ∀ c ∈ ws, pyIsSpace c = true)
    (w : List Char) : pySplitGo (ws ++ w) [] = pySplitGo w [] := by
  induction ws with
  | nil => rfl
  | cons c rest ih =>
    have hc : pyIsSpace c = true := hws c (List.mem_cons_self c rest)
    rw [List.cons_append, pySplitGo_cons]
    simp only [hc, if_true, List.isEmpty_nil]
    exact ih (fun x hx => hws x (List.mem_cons_of_mem _ hx))

theorem pySplitGo_no_sep {w : List Char} (hw : ∀ c ∈ w, pyIsSpace c = false) :
    ∀ acc : List Char, pySplitGo w acc
      = if (acc.reverse ++ w).isEmpty then [] else [acc.reverse ++ w] := by
  induction w with
  | nil =>
    intro acc
    simp [pySplitGo]
  | cons c rest ih =>
    intro acc
    have hc : pyIsSpace c = false := hw c (List.mem_cons_self c rest)
    rw [pySplitGo_cons]
    simp only [hc, Bool.false_eq_true, if_false]
    rw [ih (fun x hx => hw x (List.mem_cons_of_mem _ hx)) (c :: acc)]
    have hshape : (c :: acc).reverse ++ rest = acc.reverse ++ c :: rest := by simp
    rw [hshape]

theorem pySplitGo_word {w : List Char} (hw : ∀ c ∈ w, pyIsSpace c = false) :
    ∀ (rest acc : List Char),
      pySplitGo (w ++ rest) acc = pySplitGo rest (w.reverse ++ acc) := by
  induction w with
  | nil => intro rest acc; simp
  | cons c cw ih =>
    intro rest acc
    have hc : pyIsSpace c = false := hw c (List.mem_cons_self c cw)
    rw [List.cons_append, pySplitGo_cons]
    simp only [hc, Bool.false_eq_true, if_false]
    rw [ih (fun x hx => hw x (List.mem_cons_of_mem _ hx)) rest (c :: acc)]
    congr 1
    simp

/-- Python `"/unwire<ws><arg>".split()` yields exactly `["/unwire", arg]`
for a nonempty whitespace run and a nonempty whitespace-free argument. -/
theorem pySplit_unwire_arg {ws : List Char} {s : String}
    (hws1 : ws ≠ []) (hws2 : ∀ c ∈ ws, pyIsSpace c = true)
    (hs1 : s.data ≠ []) (hs2 : ∀ c ∈ s.data, pyIsSpace c = false) :
    pySplit ("/unwire" ++ ⟨ws⟩ ++ s) = ["/unwire", s] := by
  obtain ⟨sdata⟩ := s
  obtain ⟨c, ws', rfl⟩ : ∃ c ws', ws = c :: ws' := by
    cases ws with
    | nil => exact absurd rfl hws1
    | cons c ws' => exact ⟨c, ws', rfl⟩
  have hdata : ("/unwire" ++ ⟨c :: ws'⟩ ++ ⟨sdata⟩).data
      = ("/unwire" : String).data ++ ((c :: ws') ++ sdata) := rfl
  have hword : ∀ x ∈ ("/unwire" : String).data, pyIsSpace x = false := by decide
  unfold pySplit
  rw [hdata, pySplitGo_word hword]
  rw [List.cons_append, pySplitGo_cons]
  have hc : pyIsSpace c = true := hws2 c (List.mem_cons_self c ws')
  have hne : (("/unwire" : String).data.reverse ++ ([] : List Char)).isEmpty = false := by
    decide
  simp only [hc, if_true, hne, Bool.false_eq_true, if_false]
  rw [pySplitGo_all_sep (fun x hx => hws2 x (List.mem_cons_of_mem _ hx)) sdata]
  rw [pySplitGo_no_sep hs2 []]
  have hemp : sdata.isEmpty = false := by
    cases sdata with
    | nil => exact absurd rfl hs1
    | cons a l => rfl
  simp only [List.reverse_nil, List.nil_append, hemp, Bool.false_eq_true, if_false,
    List.append_nil, List.reverse_reverse, List.map_cons, List.map_nil]

theorem isDig_not_space {c : Char} (h : isDig c = true) : pyIsSpace c = false := by
  simp only [isDig, Bool.and_eq_true, decide_eq_true_eq] at h
  simp only [pyIsSpace, decide_eq_false_iff_not]
  omega

/-- A `YYYY-MM-DD`-shaped argument contains no whitespace and is nonempty. -/
theorem parseDate_chars {s : String} {y m d : Nat}
    (hps : parseDate s = some (y, m, d)) :
    s.data ≠ [] ∧ ∀ c ∈ s.data, pyIsSpace c = false := by
  unfold parseDate at hps
  split at hps
  case h_2 => exact absurd hps (by simp)
  case h_1 y1 y2 y3 y4 h1 m1 m2 h2 d1 d2 heq =>
    split at hps
    case isFalse => exact absurd hps (by simp)
    case isTrue hcond =>
      simp only [Bool.and_eq_true, beq_iff_eq] at hcond
      obtain ⟨⟨⟨⟨⟨⟨⟨⟨⟨hy1, hy2⟩, hy3⟩, hy4⟩, hh1⟩, hm1⟩, hm2⟩, hh2⟩, hd1⟩, hd2⟩ := hcond
      refine ⟨by rw [heq]; simp, ?_⟩
      intro x hx
      rw [heq] at hx
      simp only [List.mem_cons, List.not_mem_nil, or_false] at hx
      rcases hx with rfl | rfl | rfl | rfl | rfl | rfl | rfl | rfl | rfl | rfl
      · exact isDig_not_space hy1
      · exact isDig_not_space hy2
      · exact isDig_not_space hy3
      · exact isDig_not_space hy4
      · rw [hh1]; decide
      · exact isDig_not_space hm1
      · exact isDig_not_space hm2
      · rw [hh2]; decide
      · exact isDig_not_space hd1
      · exact isDig_not_space hd2

/-- C3: a `/unwire` dispatch whose single argument has the digit shape
`NNNN-NN-NN` but names no valid calendar date sends exactly one reply, the
literal "Invalid date format. Please use YYYY-MM-DD format (e.g., 2025-04-19)."
message, and never calls the news-fetch service. -/
theorem unwire_malformed_date_single_reply_no_fetch
    (fetch : Option String → Except String String)
    (respond : String → Except String Unit)
    (ws : List Char) (s : String) (y m d : Nat)
    (hws1 : ws ≠ []) (hws2 : ∀ c ∈ ws, pyIsSpace c = true)
    (hps : parseDate s = some (y, m, d))
    (hbad : validYMD y m d = false)
    (hr : ∀ msg, respond msg = .ok ()) :
    processUnwire fetch respond ("/unwire" ++ ⟨ws⟩ ++ s)
      = ⟨[invalidDateMsg], [], none⟩ := by
  obtain ⟨hs1, hs2⟩ := parseDate_chars hps
  have hsplit := pySplit_unwire_arg hws1 hws2 hs1 hs2
  have hnotok : strptimeOk s = false := by
    unfold strptimeOk
    rw [hps]
    exact hbad
  have htry : unwireTry fetch respond ("/unwire" ++ ⟨ws⟩ ++ s)
      = (.ok [invalidDateMsg], []) := by
    unfold unwireTry
    rw [hsplit]
    simp only [hnotok, Bool.false_eq_true, if_false]
    unfold sendOne
    rw [hr invalidDateMsg]
  unfold processUnwire
  rw [htry]

/-- Witness for C3 at the concrete dispatch `/unwire 2025-13-99`. -/
theorem unwire_malformed_date_witness :
    ((' ' :: []) ≠ ([] : List Char))
    ∧ parseDate "2025-13-99" = some (2025, 13, 99)
    ∧ validYMD 2025 13 99 = false
    ∧ processUnwire (fun _ => .error "no fetch expected")
        (fun _ => .ok ()) ("/unwire" ++ ⟨[' ']⟩ ++ "2025-13-99")
        = ⟨[invalidDateMsg], [], none⟩ :=
  ⟨by decide, by decide, by decide,
   unwire_malformed_date_single_reply_no_fetch
     (fun _ => .error "no fetch expected") (fun _ => .ok ())
     [' '] "2025-13-99" 2025 13 99
     (by decide) (by decide) (by decide) (by decide) (fun _ => rfl)⟩

/-!
Model of `_process_env` (basic_commands.py lines 273-286) and of
`Config.__init__` (config.py line 25). `envVar` is the value of the process
environment variable `ENVIRONMENT`, `none` when unset.
-/

/-- ASCII uppercase of one character (Python `str.upper()` restricted to the
ASCII range, which covers every string these claims touch). -/
def pyUpperChar (c : Char) : Char :=
  if 97 ≤ c.toNat ∧ c.toNat ≤ 122 then Char.ofNat (c.toNat - 32) else c

/-- Python `s.upper()`. -/
def pyUpper (s : String) : String := ⟨s.data.map pyUpperChar⟩

/-- Reply text computed by `_process_env`:
`environment = os.getenv('ENVIRONMENT', 'Not set')` followed by
`f"Environment: {environment.upper()}\n\n"`. -/
def processEnvReply (envVar : Option String) : String :=
  "Environment: " ++ pyUpper (envVar.getD "Not set") ++ "\n\n"

/-- `Config.environment` (config.py line 25):
`os.getenv('ENVIRONMENT', 'test')`. -/
def configEnvironment (envVar : Option String) : String :=
  envVar.getD "test"

/-- List containment of a contiguous pattern, used to state "the reply
contains the substring". -/
def containsList (hay pat : List Char) : Bool :=
  match hay with
  | [] => pat.isEmpty
  | _ :: t => pat.isPrefixOf hay || containsList t pat

/-- Substring test on strings. -/
def strContainsLit (hay pat : String) : Bool := containsList hay.data pat.data

theorem isPrefixOf_self_append (p b : List Char) : p.isPrefixOf (p ++ b) = true := by
  induction p with
  | nil => simp [List.isPrefixOf]
  | cons c t ih =>
    show ((c == c) && t.isPrefixOf (t ++ b)) = true
    simp [ih]

theorem containsList_of_middle (a p b : List Char) :
    containsList (a ++ p ++ b) p = true := by
  induction a with
  | nil =>
    cases p with
    | nil =>
      cases b with
      | nil => rfl
      | cons c t =>
        show (List.isPrefixOf [] (c :: t) || containsList t []) = true
        simp [List.isPrefixOf]
    | cons c t =>
      show ((c :: t).isPrefixOf ((c :: t) ++ b) || _) = true
      rw [isPrefixOf_self_append]
      rfl
  | cons x a' ih =>
    show (p.isPrefixOf _ || containsList (a' ++ p ++ b) p) = true
    rw [ih]
    exact Bool.or_true _

/-- C4: the `/env` reply embeds the configured environment name rendered
uppercase, and the literal value "test" yields a reply containing "TEST". -/
theorem env_reply_uppercases_environment :
    (∀ v : String,
      strContainsLit (processEnvReply (some v)) (pyUpper v) = true)
    ∧ processEnvReply (some "test") = "Environment: TEST\n\n"
    ∧ strContainsLit (processEnvReply (some "test")) "TEST" = true := by
  refine ⟨?_, by decide, by decide⟩
  intro v
  have hdata : (processEnvReply (some v)).data
      = ("Environment: " : String).data ++ (pyUpper v).data ++ ("\n\n" : String).data := by
    obtain ⟨vd⟩ := v
    rfl
  unfold strContainsLit
  rw [hdata]
  exact containsList_of_middle _ _ _

/-- C10: the `/env` reply is computed from the `ENVIRONMENT` process
variable with fallback "Not set", not from the `Config` object: with the
variable unset the reply is "Environment: NOT SET\n\n" although
`Config.environment` defaults to "test" (whose uppercase rendering would
give a different reply). -/
theorem env_reply_ignores_config_default :
    processEnvReply none = "Environment: NOT SET\n\n"
    ∧ configEnvironment none = "test"
    ∧ pyUpper (configEnvironment none) = "TEST"
    ∧ processEnvReply none
        ≠ "Environment: " ++ pyUpper (configEnvironment none) ++ "\n\n" := by
  refine ⟨by decide, rfl, by decide, by decide⟩

/-!
Model of `_process_ping` (basic_commands.py lines 83-138). `t0` and `t1` are
the `time.time()` readings taken immediately before the `event.respond`
call and immediately after it returns (lines 85-87), modelled as exact
rationals; `fmt` is the Python float-to-string rendering used by the
f-string; `location` is whatever string the try-guarded lookup of lines
90-132 produced (that lookup swallows its own exceptions and cannot raise).
The respond and edit calls themselves are NOT inside any try block.
-/

/-- Round half to even on an exact rational, the rounding mode of Python's
built-in `round`. -/
def roundHalfEven (q : ℚ) : ℤ :=
  if q - ⌊q⌋ < 1 / 2 then ⌊q⌋
  else if 1 / 2 < q - ⌊q⌋ then ⌊q⌋ + 1
  else if ⌊q⌋ % 2 == 0 then ⌊q⌋
  else ⌊q⌋ + 1

/-- `latency = round((end_time - start_time) * 1000, 2)` (line 88):
elapsed seconds of the bot's own reply round trip, scaled to milliseconds
and rounded to two decimal places. -/
def pingLatency (t0 t1 : ℚ) : ℚ :=
  (roundHalfEven ((t1 - t0) * 1000 * 100) : ℚ) / 100

/-- `response = f"{latency}ms\nService: {service}\nLocation: {location}"`
with `service = "Azure"` (lines 91, 135). -/
def pingResponse (fmt : ℚ → String) (t0 t1 : ℚ) (location : String) : String :=
  fmt (pingLatency t0 t1) ++ "ms\nService: Azure\nLocation: " ++ location

/-- Observable behaviour of one `_process_ping` run: replies sent, message
edits applied, and the exception escaping the coroutine, if any. -/
structure PingResult where
  sent : List String
  edits : List String
  escaped : Option String
deriving DecidableEq, Repr

/-- `_process_ping`: respond "Pinging...", compute the latency line, then
edit the message. Neither transport call is guarded, so an exception from
either escapes the coroutine (terminating only that spawned task). -/
def processPing (respond : String → Except String Unit)
    (edit : String → Except String Unit)
    (t0 t1 : ℚ) (fmt : ℚ → String) (location : String) : PingResult :=
  match respond "Pinging..." with
  | .error e => ⟨[], [], some e⟩
  | .ok _ =>
    let response := pingResponse fmt t0 t1 location
    match edit response with
    | .ok _ => ⟨["Pinging..."], [response], none⟩
    | .error e => ⟨["Pinging..."], [], some e⟩

/-- First line of a message, up to but excluding the first newline. -/
def firstLine (s : String) : String :=
  ⟨s.data.takeWhile (fun c => !(c == '\n'))⟩

theorem takeWhile_append_of_all {p : Char → Bool} {f : List Char}
    (hf : ∀ c ∈ f, p c = true) (g : List Char) :
    (f ++ g).takeWhile p = f ++ g.takeWhile p := by
  induction f with
  | nil => simp
  | cons c t ih =>
    have hc : p c = true := hf c (List.mem_cons_self c t)
    rw [List.cons_append, List.takeWhile_cons, hc]
    simp only [if_true]
    rw [ih (fun x hx => hf x (List.mem_cons_of_mem _ hx))]
    rfl

/-- A newline-free first segment followed by the `ms`-and-newline tail is
what `firstLine` extracts from the ping response. -/
theorem firstLine_response (F location : String)
    (hF : ∀ c ∈ F.data, (!(c == '\n')) = true) :
    firstLine (F ++ "ms\nService: Azure\nLocation: " ++ location) = F ++ "ms" := by
  obtain ⟨fd⟩ := F
  obtain ⟨ld⟩ := location
  unfold firstLine
  have hdata : ((⟨fd⟩ ++ "ms\nService: Azure\nLocation: " ++ ⟨ld⟩ : String)).data
      = fd ++ ('m' :: 's' :: '\n' :: (("Service: Azure\nLocation: " : String).data ++ ld)) := by
    rw [String.data_append, String.data_append]
    simp
  rw [hdata, takeWhile_append_of_all hF]
  have hm : (!('m' == '\n')) = true := rfl
  have hs : (!('s' == '\n')) = true := rfl
  have hn : (!('\n' == '\n')) = false := rfl
  simp only [List.takeWhile_cons, hm, hs, hn, if_true, Bool.false_eq_true, if_false]
  rfl

/-- C8: the `/ping` latency figure equals the elapsed time between issuing
the bot's own "Pinging..." reply call and receiving its acknowledgment
(`t1 - t0`, not a true network latency), converted to milliseconds and
rounded to 2 decimal places, and the final edited message renders it as the
first line `<latency>ms`. -/
theorem ping_latency_is_reply_roundtrip
    (respond edit : String → Except String Unit)
    (t0 t1 : ℚ) (fmt : ℚ → String) (location : String)
    (hresp : respond "Pinging..." = .ok ())
    (hedit : ∀ m, edit m = .ok ())
    (hfmt : ∀ q, '\n' ∉ (fmt q).data) :
    (processPing respond edit t0 t1 fmt location).edits
        = [pingResponse fmt t0 t1 location]
    ∧ pingLatency t0 t1 = (roundHalfEven ((t1 - t0) * 1000 * 100) : ℚ) / 100
    ∧ firstLine (pingResponse fmt t0 t1 location)
        = fmt (pingLatency t0 t1) ++ "ms" := by
  refine ⟨?_, rfl, ?_⟩
  · simp [processPing, hresp, hedit]
  · have hall : ∀ c ∈ (fmt (pingLatency t0 t1)).data, (!(c == '\n')) = true := by
      intro c hc
      simp only [Bool.not_eq_eq_eq_not, Bool.not_true, beq_eq_false_iff_ne, ne_eq]
      intro hcn
      exact hfmt (pingLatency t0 t1) (hcn ▸ hc)
    exact firstLine_response (fmt (pingLatency t0 t1)) location hall

/-- Witness for C8 with an always-successful transport and a fixed rendering
of the latency float. -/
theorem ping_latency_witness :
    (processPing (fun _ => .ok ()) (fun _ => .ok ()) 0 (1 / 100)
        (fun _ => "10.0") "Unknown").edits
      = [pingResponse (fun _ => "10.0") 0 (1 / 100) "Unknown"]
    ∧ pingLatency 0 (1 / 100)
      = (roundHalfEven (((1 : ℚ) / 100 - 0) * 1000 * 100) : ℚ) / 100
    ∧ firstLine (pingResponse (fun _ => "10.0") 0 (1 / 100) "Unknown")
      = "10.0" ++ "ms" :=
  ping_latency_is_reply_roundtrip (fun _ => .ok ()) (fun _ => .ok ())
    0 (1 / 100) (fun _ => "10.0") "Unknown" rfl (fun _ => rfl)
    (fun _ => by show '\n' ∉ ("10.0" : String).data; decide)

/-- C7 counterexample: `_process_ping` wraps no try/except around its
transport calls (basic_commands.py lines 85-88, 134-138), so an exception
raised by the initial `event.respond("Pinging...")` escapes the handler body
and the caller receives no reply at all — contradicting the claim that every
exception raised while a handler runs is caught within the handler and
yields exactly one generic failure reply. -/
theorem ping_exception_escapes_counterexample :
    processPing (fun _ => Except.error "FloodWaitError") (fun _ => Except.ok ())
        0 0 (fun _ => "0.0") "Unknown"
      = ⟨[], [], some "FloodWaitError"⟩
    ∧ ¬((processPing (fun _ => Except.error "FloodWaitError") (fun _ => Except.ok ())
        0 0 (fun _ => "0.0") "Unknown").escaped = none
      ∧ (processPing (fun _ => Except.error "FloodWaitError") (fun _ => Except.ok ())
        0 0 (fun _ => "0.0") "Unknown").sent.length = 1) := by
  refine ⟨rfl, ?_⟩
  rintro ⟨h1, -⟩
  exact Option.some_ne_none "FloodWaitError" h1

/-- C7 amended: an exception raised inside a handler's try-guarded region is
caught within the handler and yields exactly one short generic failure reply
(e.g. a news-fetch failure during `/unwire` yields the single generic
message and nothing escapes); but an exception raised outside any guard —
e.g. by the reply round trip in `_process_ping` — escapes the handler body
(terminating only that spawned task) and produces no failure reply. -/
theorem handler_failure_containment_amended
    (fetch : Option String → Except String String)
    (respond : String → Except String Unit) (e : String)
    (hf : fetch none = .error e)
    (hr : ∀ m, respond m = .ok ()) :
    processUnwire fetch respond "/unwire" = ⟨[unwireFailMsg], [none], none⟩
    ∧ ∀ (e2 : String) (edit : String → Except String Unit) (t0 t1 : ℚ)
        (fmt : ℚ → String) (loc : String),
        processPing (fun _ => Except.error e2) edit t0 t1 fmt loc
          = ⟨[], [], some e2⟩ := by
  constructor
  · have hsplit : pySplit "/unwire" = ["/unwire"] := by decide
    have htry : unwireTry fetch respond "/unwire" = (.error e, [none]) := by
      unfold unwireTry
      rw [hsplit, hf]
    unfold processUnwire
    rw [htry, hr unwireFailMsg]
  · intro e2 edit t0 t1 fmt loc
    rfl

/-- Witness for the amended C7 with a concrete failing fetch. -/
theorem handler_failure_containment_witness :
    processUnwire (fun _ => Except.error "boom") (fun _ => Except.ok ()) "/unwire"
      = ⟨[unwireFailMsg], [none], none⟩
    ∧ ∀ (e2 : String) (edit : String → Except String Unit) (t0 t1 : ℚ)
        (fmt : ℚ → String) (loc : String),
        processPing (fun _ => Except.error e2) edit t0 t1 fmt loc
          = ⟨[], [], some e2⟩ :=
  handler_failure_containment_amended (fun _ => Except.error "boom")
    (fun _ => Except.ok ()) "boom" rfl (fun _ => rfl)

/-!
Command patterns and dispatch. `register_handlers` (basic_commands.py lines
30-65) wires six handlers through the transport's pattern subscription:
`^/ping$`, `^/hi_dog$`, `^/test$`, `^/env$`, `^/\.env$` and
`^/unwire(?:\s+\d{4}-\d{2}-\d{2})?$`. Each core below is the regex body
between the anchors; `reMatch` adds Python's `$` semantics ("end of string,
or just before a trailing newline"). The six patterns are pairwise disjoint,
so first-match lookup in registration order reproduces the transport's
behaviour of firing every matching subscription.
-/

/-- The six commands wired by `register_handlers`, in registration order. -/
inductive Cmd
  | ping
  | hiDog
  | test
  | env
  | dotenv
  | unwire
deriving DecidableEq, Repr

/-- The 62 codepoint ranges of Unicode general category Nd (decimal digits)
in the Unicode database CPython 3.11 ships, which is exactly what the
str-pattern class `\d` matches. -/
def ndRanges : List (Nat × Nat) :=
  [(0x30, 0x39), (0x660, 0x669), (0x6f0, 0x6f9), (0x7c0, 0x7c9),
   (0x966, 0x96f), (0x9e6, 0x9ef), (0xa66, 0xa6f), (0xae6, 0xaef),
   (0xb66, 0xb6f), (0xbe6, 0xbef), (0xc66, 0xc6f), (0xce6, 0xcef),
   (0xd66, 0xd6f), (0xde6, 0xdef), (0xe50, 0xe59), (0xed0, 0xed9),
   (0xf20, 0xf29), (0x1040, 0x1049), (0x1090, 0x1099), (0x17e0, 0x17e9),
   (0x1810, 0x1819), (0x1946, 0x194f), (0x19d0, 0x19d9), (0x1a80, 0x1a89),
   (0x1a90, 0x1a99), (0x1b50, 0x1b59), (0x1bb0, 0x1bb9), (0x1c40, 0x1c49),
   (0x1c50, 0x1c59), (0xa620, 0xa629), (0xa8d0, 0xa8d9), (0xa900, 0xa909),
   (0xa9d0, 0xa9d9), (0xa9f0, 0xa9f9), (0xaa50, 0xaa59), (0xabf0, 0xabf9),
   (0xff10, 0xff19), (0x104a0, 0x104a9), (0x10d30, 0x10d39),
   (0x11066, 0x1106f), (0x110f0, 0x110f9), (0x11136, 0x1113f),
   (0x111d0, 0x111d9), (0x112f0, 0x112f9), (0x11450, 0x11459),
   (0x114d0, 0x114d9), (0x11650, 0x11659), (0x116c0, 0x116c9),
   (0x11730, 0x11739), (0x118e0, 0x118e9), (0x11950, 0x11959),
   (0x11c50, 0x11c59), (0x11d50, 0x11d59), (0x11da0, 0x11da9),
   (0x16a60, 0x16a69), (0x16ac0, 0x16ac9), (0x16b50, 0x16b59),
   (0x1d7ce, 0x1d7ff), (0x1e140, 0x1e149), (0x1e2f0, 0x1e2f9),
   (0x1e950, 0x1e959), (0x1fbf0, 0x1fbf9)]

/-- CPython str-pattern `\d`: any Unicode decimal digit (category Nd). -/
def isUniDigit (c : Char) : Bool :=
  ndRanges.any (fun r => r.1 ≤ c.toNat && c.toNat ≤ r.2)

/-- Digit shape `\d{4}-\d{2}-\d{2}` of the optional `/unwire` argument,
with `\d` the full Unicode decimal-digit class. -/
def dateShapeChars (l : List Char) : Bool :=
  match l with
  | [y1, y2, y3, y4, h1, m1, m2, h2, d1, d2] =>
    isUniDigit y1 && isUniDigit y2 && isUniDigit y3 && isUniDigit y4 && h1 == '-'
      && isUniDigit m1 && isUniDigit m2 && h2 == '-' && isUniDigit d1 && isUniDigit d2
  | _ => false

/-- Body of `^/ping$`. -/
def corePing (l : List Char) : Bool := l == ("/ping" : String).data

/-- Body of `^/hi_dog$`. -/
def coreHiDog (l : List Char) : Bool := l == ("/hi_dog" : String).data

/-- Body of `^/test$`. -/
def coreTest (l : List Char) : Bool := l == ("/test" : String).data

/-- Body of `^/env$`. -/
def coreEnv (l : List Char) : Bool := l == ("/env" : String).data

/-- Body of `^/\.env$`. -/
def coreDotenv (l : List Char) : Bool := l == ("/.env" : String).data

/-- Body of `^/unwire(?:\s+\d{4}-\d{2}-\d{2})?$`: either the bare command, or
the command followed by a nonempty whitespace run and a date-shaped argument
reaching the end. -/
def coreUnwire (l : List Char) : Bool :=
  l == ("/unwire" : String).data
    || (("/unwire" : String).data.isPrefixOf l
        && !((l.drop 7).takeWhile pyIsSpace).isEmpty
        && dateShapeChars ((l.drop 7).dropWhile pyIsSpace))

/-- Python fully anchored `^...$` match: `$` also matches just before one
trailing newline. -/
def reMatch (core : List Char → Bool) (l : List Char) : Bool :=
  core l || (l.getLast? == some '\n' && core l.dropLast)

/-- Lookup of the handler subscribed to an inbound text, in registration
order (the six patterns are pairwise disjoint). -/
def matchText (s : String) : Option Cmd :=
  if reMatch corePing s.data then some .ping
  else if reMatch coreHiDog s.data then some .hiDog
  else if reMatch coreTest s.data then some .test
  else if reMatch coreEnv s.data then some .env
  else if reMatch coreDotenv s.data then some .dotenv
  else if reMatch coreUnwire s.data then some .unwire
  else none

/-- An inbound message event: Telegram message id, dispatch-time coarse
timestamp, message text and the task object the spawn would allocate. -/
structure Event where
  id : Nat
  time : Nat
  text : String
  taskRef : Nat
deriving DecidableEq, Repr

/-- `env_handler` (lines 257-271): spawn `_process_env` under an
`env_<id>_<time>` task id. `dotenv_handler` (lines 288-290) runs exactly
this function. -/
def envHandlerSpawn (ev : Event) (st : TrackerState) : TrackerState :=
  spawnTask ⟨"env", ev.id, ev.time, ev.taskRef⟩ st

/-- The `_process_*` coroutine a dispatch starts; `/.env` starts
`_process_env`, the same as `/env`. -/
inductive ProcKind
  | ping
  | hiDog
  | test
  | env
  | unwire
deriving DecidableEq, Repr

/-- Tracker effect of the handler bound to each command; `dotenv_handler`
merely awaits `env_handler`, so both wire to `envHandlerSpawn`. -/
def handlerSpawn (c : Cmd) (ev : Event) (st : TrackerState) : TrackerState :=
  match c with
  | .ping => spawnTask ⟨"ping", ev.id, ev.time, ev.taskRef⟩ st
  | .hiDog => spawnTask ⟨"hi_dog", ev.id, ev.time, ev.taskRef⟩ st
  | .test => spawnTask ⟨"test", ev.id, ev.time, ev.taskRef⟩ st
  | .env => envHandlerSpawn ev st
  | .dotenv => envHandlerSpawn ev st
  | .unwire => spawnTask ⟨"unwire", ev.id, ev.time, ev.taskRef⟩ st

/-- Coroutine started by each command's handler. -/
def procOf : Cmd → ProcKind
  | .ping => .ping
  | .hiDog => .hiDog
  | .test => .test
  | .env => .env
  | .dotenv => .env
  | .unwire => .unwire

/-- Dispatch of one inbound event: match the text against the registered
patterns; on a miss nothing happens (no task, no reply); on a hit the
matched handler records its task and its `_process_*` coroutine starts. -/
def runEvent (ev : Event) (st : TrackerState) : TrackerState × Option ProcKind :=
  match matchText ev.text with
  | none => (st, none)
  | some c => (handlerSpawn c ev st, some (procOf c))

theorem takeWhile_all_false {p : Char → Bool} {w : List Char}
    (hw : ∀ c ∈ w, p c = false) : w.takeWhile p = [] := by
  cases w with
  | nil => rfl
  | cons c t =>
    rw [List.takeWhile_cons, hw c (List.mem_cons_self c t)]
    simp

theorem dropWhile_all_false {p : Char → Bool} {w : List Char}
    (hw : ∀ c ∈ w, p c = false) : w.dropWhile p = w := by
  cases w with
  | nil => rfl
  | cons c t =>
    rw [List.dropWhile_cons, hw c (List.mem_cons_self c t)]
    simp

/-- C6: a dispatch matching no registered pattern takes no action — the
tracker state is unchanged, no task is spawned and no coroutine (hence no
reply) is started; and `/unwire <arg>` with a nonempty whitespace-free
argument that does not have the digit shape `NNNN-NN-NN` fails the
registered pattern, where whitespace and digits are CPython's full Unicode
`\s` and `\d` classes (so e.g. a no-break-space run or an Arabic-Indic
digit date is NOT in this theorem's scope: the program does match those). -/
theorem unmatched_text_no_action :
    (∀ (ev : Event) (st : TrackerState),
      matchText ev.text = none → runEvent ev st = (st, none))
    ∧ (∀ arg : String, arg.data ≠ [] →
        (∀ c ∈ arg.data, pyIsSpace c = false) →
        dateShapeChars arg.data = false →
        matchText ("/unwire " ++ arg) = none) := by
  constructor
  · intro ev st h
    unfold runEvent
    rw [h]
  · intro arg hne hnw hshape
    have hdata : ("/unwire " ++ arg).data
        = ("/unwire" : String).data ++ (' ' :: arg.data) := by
      rw [String.data_append]
      rfl
    have hlen : (("/unwire " ++ arg).data).length = 8 + arg.data.length := by
      rw [hdata, List.length_append]
      have h7 : ("/unwire" : String).data.length = 7 := rfl
      rw [h7, List.length_cons]
      omega
    have hbeq : ∀ pat : List Char, pat.length < 8
        → ((("/unwire " ++ arg).data) == pat) = false := by
      intro pat hp
      refine beq_eq_false_iff_ne.mpr ?_
      intro h
      have hl := congrArg List.length h
      rw [hlen] at hl
      omega
    have hlast : ((("/unwire " ++ arg).data).getLast? == some '\n') = false := by
      rcases List.eq_nil_or_concat arg.data with h | ⟨w0, c, h⟩
      · exact absurd h hne
      · have h' : arg.data = w0 ++ [c] := by
          simpa [List.concat_eq_append] using h
        have hcmem : c ∈ arg.data := by
          rw [h']
          exact List.mem_append.mpr (Or.inr (by simp))
        have hcn : pyIsSpace c = false := hnw c hcmem
        have hgl : (("/unwire " ++ arg).data).getLast? = some c := by
          rw [hdata, h']
          rw [show ("/unwire" : String).data ++ (' ' :: (w0 ++ [c]))
              = (("/unwire" : String).data ++ (' ' :: w0)) ++ [c] by simp]
          exact List.getLast?_concat _
        rw [hgl]
        have hcne : c ≠ '\n' := by
          intro hcEq
          rw [hcEq] at hcn
          exact absurd hcn (by decide)
        simp [hcne]
    have hre : ∀ core, reMatch core (("/unwire " ++ arg).data)
        = core (("/unwire " ++ arg).data) := by
      intro core
      unfold reMatch
      rw [hlast]
      simp
    have hp1 : corePing (("/unwire " ++ arg).data) = false := hbeq _ (by decide)
    have hp2 : coreHiDog (("/unwire " ++ arg).data) = false := hbeq _ (by decide)
    have hp3 : coreTest (("/unwire " ++ arg).data) = false := hbeq _ (by decide)
    have hp4 : coreEnv (("/unwire " ++ arg).data) = false := hbeq _ (by decide)
    have hp5 : coreDotenv (("/unwire " ++ arg).data) = false := hbeq _ (by decide)
    have hp6 : coreUnwire (("/unwire " ++ arg).data) = false := by
      unfold coreUnwire
      rw [hbeq _ (by decide)]
      have hdrop : (("/unwire " ++ arg).data).drop 7 = ' ' :: arg.data := by
        rw [hdata]
        rw [show (7 : Nat) = ("/unwire" : String).data.length from rfl]
        exact List.drop_left _ _
      rw [hdrop]
      have hdw : (' ' :: arg.data).dropWhile pyIsSpace
          = arg.data.dropWhile pyIsSpace := by
        rw [List.dropWhile_cons]
        have hsp : pyIsSpace ' ' = true := by decide
        simp [hsp]
      rw [hdw, dropWhile_all_false hnw, hshape]
      simp
    unfold matchText
    rw [hre corePing, hp1, hre coreHiDog, hp2, hre coreTest, hp3, hre coreEnv, hp4,
        hre coreDotenv, hp5, hre coreUnwire, hp6]
    simp

/-- Witness for C6: `/unwire banana` matches nothing and dispatching it
leaves the tracker untouched. -/
theorem unmatched_text_no_action_witness :
    matchText "/unwire banana" = none
    ∧ runEvent ⟨1, 100, "/unwire banana", 10⟩ emptyTracker = (emptyTracker, none) :=
  ⟨by decide,
   unmatched_text_no_action.1 ⟨1, 100, "/unwire banana", 10⟩ emptyTracker (by decide)⟩

/-- C9: dispatching `/.env` is observably identical to dispatching `/env`
on the same event — `dotenv_handler` awaits `env_handler` unchanged, so both
record the same `env_<id>_<time>` task and start `_process_env`. -/
theorem dotenv_dispatch_equals_env_dispatch
    (i t r : Nat) (st : TrackerState) :
    runEvent ⟨i, t, "/.env", r⟩ st = runEvent ⟨i, t, "/env", r⟩ st := by
  have h1 : matchText "/.env" = some Cmd.dotenv := by decide
  have h2 : matchText "/env" = some Cmd.env := by decide
  unfold runEvent
  simp only [h1, h2]
  rfl

/-- Error raised on duplicate pattern registration.
Modelled from the spec: the Command Registry abstraction of spec section 4.1
is not part of src/ — the source wires handlers through the transport's
`add_event_handler` (basic_commands.py lines 30-65). -/
inductive RegError
  | duplicatePattern
deriving DecidableEq, Repr

/-- Modelled from the spec: `register(pattern, handler)` "adds a mapping;
fails with a `DuplicatePatternError` if the same pattern is already
registered" (spec section 4.1); registration order is kept for first-match
lookup. -/
def register (pattern : String) (handler : Cmd) (reg : List (String × Cmd)) :
    Except RegError (List (String × Cmd)) :=
  if reg.any (fun q => q.1 == pattern) then .error .duplicatePattern
  else .ok (reg ++ [(pattern, handler)])

/-- Startup wiring of `register_handlers` (basic_commands.py lines 30-65):
register the six source patterns in registration order, aborting on the
first failure (fatal at startup). -/
def registerHandlers : Except RegError (List (String × Cmd)) := do
  let r1 ← register "^/ping$" .ping []
  let r2 ← register "^/hi_dog$" .hiDog r1
  let r3 ← register "^/test$" .test r2
  let r4 ← register "^/env$" .env r3
  let r5 ← register "^/\\.env$" .dotenv r4
  register "^/unwire(?:\\s+\\d{4}-\\d{2}-\\d{2})?$" .unwire r5

/-- C5: registering a pattern that is already present fails with
`DuplicatePatternError`, while the six distinct source patterns all register
at startup — a duplicate can only be a wiring programming error surfacing at
startup, not a runtime condition. -/
theorem duplicate_registration_fails
    (reg : List (String × Cmd)) (pattern : String) (handler : Cmd)
    (h : ∃ q ∈ reg, q.1 = pattern) :
    register pattern handler reg = .error RegError.duplicatePattern
    ∧ registerHandlers
      = .ok [("^/ping$", Cmd.ping), ("^/hi_dog$", Cmd.hiDog),
             ("^/test$", Cmd.test), ("^/env$", Cmd.env),
             ("^/\\.env$", Cmd.dotenv),
             ("^/unwire(?:\\s+\\d{4}-\\d{2}-\\d{2})?$", Cmd.unwire)] := by
  constructor
  · unfold register
    have hany : reg.any (fun q => q.1 == pattern) = true := by
      rw [List.any_eq_true]
      obtain ⟨q, hq, he⟩ := h
      exact ⟨q, hq, by simp [he]⟩
    rw [hany]
    rfl
  · rfl

/-- Witness for C5: re-registering `^/ping$` on a registry already holding it
fails with the duplicate-pattern error. -/
theorem duplicate_registration_fails_witness :
    (∃ q ∈ [("^/ping$", Cmd.ping)], q.1 = "^/ping$")
    ∧ register "^/ping$" Cmd.ping [("^/ping$", Cmd.ping)]
        = .error RegError.duplicatePattern :=
  ⟨⟨("^/ping$", Cmd.ping), by decide, rfl⟩,
   (duplicate_registration_fails [("^/ping$", Cmd.ping)] "^/ping$" Cmd.ping
     ⟨("^/ping$", Cmd.ping), by decide, rfl⟩).1⟩
